import Mathlib

/-!
Verification development for the SoundGrid repository (src/app.py,
src/camera_utils.py, src/sound_synthesis.py): a shallow embedding of the
sequencer/synthesis state machines and the hue-to-tone pipeline, with
theorems settling the specification claims. Machine reals are modelled by
exact rationals; audio graph objects are modelled by records carrying the
parameters the code sets on them.
-/

/-- CameraManager.quantize_to_scale's table (src/camera_utils.py lines
160-162): the A-minor pentatonic-ish list the hue pipeline quantizes to.
Note this table is distinct from the row table in app.py. -/
def SCALE_FREQUENCIES : List ℚ :=
  [220.0, 246.94, 261.63, 293.66, 329.63, 392.0, 440.0, 493.88, 523.25, 587.33]

/-- SoundGrid.scale_frequencies (src/app.py lines 66-77): the 10-note row
table used for the grid's rows; row index y maps to scale_frequencies[y]. -/
def scale_frequencies : List ℚ :=
  [220.0, 261.63, 293.66, 329.63, 392.0, 440.0, 523.25, 587.33, 659.25, 784.0]

/-- Python's abs on the rational model of floats: negate when negative.
Written as an executable conditional so concrete inputs evaluate. -/
def absQ (x : ℚ) : ℚ := if x < 0 then -x else x

/-- Left fold behind Python's built-in min with a key function: scans the
list keeping the current best, replacing it only on a strictly smaller key,
so the first minimal element wins ties. Here the key is the absolute
difference to freq, as in quantize_to_scale's lambda. -/
def minByKey (freq : ℚ) : List ℚ → ℚ → ℚ
  | [], best => best
  | x :: xs, best => minByKey freq xs (if absQ (x - freq) < absQ (best - freq) then x else best)

/-- CameraManager.quantize_to_scale (src/camera_utils.py lines 157-163):
min(SCALE_FREQUENCIES, key=lambda x: abs(x - freq)). Python's min raises
on an empty sequence; the table is non-empty so that branch is unreachable
and returns freq itself here. -/
def quantize_to_scale (freq : ℚ) : ℚ :=
  match SCALE_FREQUENCIES with
  | [] => freq
  | x :: xs => minByKey freq xs x

/-- Boolean test that y minimizes the absolute difference to freq over the
list l; used to phrase the spec's description of quantize. -/
def minimizes (freq y : ℚ) (l : List ℚ) : Bool :=
  l.all (fun z => decide (absQ (y - freq) ≤ absQ (z - freq)))

/-- Modelled from the spec's words for comparison with the code ("returns
the ScaleTable element minimizing absolute difference to freq ... ties
broken by table order, first minimal match"): the first element of the
table that minimizes the absolute difference. -/
def spec_quantize (freq : ℚ) : Option ℚ :=
  SCALE_FREQUENCIES.find? (fun y => minimizes freq y SCALE_FREQUENCIES)

/-- The accumulator fold behind Python min returns an element of the
scanned list that (a) minimizes the key and (b) strictly beats everything
placed before it, i.e. it is the first minimal element. -/
theorem minByKey_spec (freq : ℚ) :
    ∀ (xs : List ℚ) (b : ℚ),
      ∃ l₁ l₂, b :: xs = l₁ ++ minByKey freq xs b :: l₂ ∧
        (∀ y ∈ l₁, absQ (minByKey freq xs b - freq) < absQ (y - freq)) ∧
        (∀ y ∈ b :: xs, absQ (minByKey freq xs b - freq) ≤ absQ (y - freq)) := by
  intro xs
  induction xs with
  | nil =>
    intro b
    refine ⟨[], [], rfl, ?_, ?_⟩
    · intro y hy
      exact absurd hy (List.not_mem_nil y)
    · intro y hy
      rw [List.mem_singleton] at hy
      subst hy
      simp [minByKey]
  | cons x xs ih =>
    intro b
    by_cases h : absQ (x - freq) < absQ (b - freq)
    · obtain ⟨l₁, l₂, hdec, hstrict, hmin⟩ := ih x
      have hm : minByKey freq (x :: xs) b = minByKey freq xs x := by
        simp [minByKey, h]
      rw [hm]
      refine ⟨b :: l₁, l₂, ?_, ?_, ?_⟩
      · rw [List.cons_append, ← hdec]
      · intro y hy
        rcases List.mem_cons.mp hy with hyb | hy'
        · subst hyb
          exact lt_of_le_of_lt (hmin x (List.mem_cons_self x xs)) h
        · exact hstrict y hy'
      · intro y hy
        rcases List.mem_cons.mp hy with hyb | hy'
        · subst hyb
          exact le_of_lt (lt_of_le_of_lt (hmin x (List.mem_cons_self x xs)) h)
        · exact hmin y hy'
    · obtain ⟨l₁, l₂, hdec, hstrict, hmin⟩ := ih b
      have hm : minByKey freq (x :: xs) b = minByKey freq xs b := by
        simp [minByKey, h]
      rw [hm]
      have hxb : absQ (b - freq) ≤ absQ (x - freq) := not_lt.mp h
      cases l₁ with
      | nil =>
        rw [List.nil_append] at hdec
        have hb : b = minByKey freq xs b := (List.cons.injEq _ _ _ _ ▸ hdec).1
        have hl₂ : xs = l₂ := (List.cons.injEq _ _ _ _ ▸ hdec).2
        refine ⟨[], x :: xs, ?_, ?_, ?_⟩
        · rw [List.nil_append, ← hb]
        · intro y hy
          exact absurd hy (List.not_mem_nil y)
        · intro y hy
          rcases List.mem_cons.mp hy with hyb | hy'
          · subst hyb
            exact hmin y (List.mem_cons_self y xs)
          · rcases List.mem_cons.mp hy' with hyx | hy''
            · subst hyx
              rw [← hb]
              exact hxb
            · exact hmin y (List.mem_cons_of_mem b hy'')
      | cons c l₁' =>
        rw [List.cons_append] at hdec
        have hc : b = c := (List.cons.injEq _ _ _ _ ▸ hdec).1
        have hrest : xs = l₁' ++ minByKey freq xs b :: l₂ :=
          (List.cons.injEq _ _ _ _ ▸ hdec).2
        have hbstrict : absQ (minByKey freq xs b - freq) < absQ (b - freq) := by
          have := hstrict c (List.mem_cons_self c l₁')
          rw [← hc] at this
          exact this
        refine ⟨b :: x :: l₁', l₂, ?_, ?_, ?_⟩
        · rw [List.cons_append, List.cons_append, ← hrest]
        · intro y hy
          rcases List.mem_cons.mp hy with hyb | hy'
          · subst hyb
            exact hbstrict
          · rcases List.mem_cons.mp hy' with hyx | hy''
            · subst hyx
              exact lt_of_lt_of_le hbstrict hxb
            · exact hstrict y (List.mem_cons_of_mem c hy'')
        · intro y hy
          rcases List.mem_cons.mp hy with hyb | hy'
          · subst hyb
            exact hmin y (List.mem_cons_self y xs)
          · rcases List.mem_cons.mp hy' with hyx | hy''
            · subst hyx
              exact le_of_lt (lt_of_lt_of_le hbstrict hxb)
            · exact hmin y (List.mem_cons_of_mem b hy'')

/-- find? over a list decomposed as a failing prefix followed by a
satisfying element returns that element. -/
theorem find?_first {α : Type} (p : α → Bool) (m : α) :
    ∀ (l₁ l₂ : List α), (∀ y ∈ l₁, p y = false) → p m = true →
      List.find? p (l₁ ++ m :: l₂) = some m := by
  intro l₁
  induction l₁ with
  | nil =>
    intro l₂ _ hm
    rw [List.nil_append]
    exact List.find?_cons_of_pos l₂ hm
  | cons c l₁ ih =>
    intro l₂ hfail hm
    rw [List.cons_append, List.find?_cons_of_neg]
    · exact ih l₂ (fun y hy => hfail y (List.mem_cons_of_mem c hy)) hm
    · simp [hfail c (List.mem_cons_self c l₁)]

/-- find? on a list known to decompose into a failing prefix and a
satisfying element returns that element (decomposition given as an
equation, so the predicate itself is untouched). -/
theorem find?_eq_of_decomp {α : Type} (p : α → Bool) (m : α) (L l₁ l₂ : List α)
    (hL : L = l₁ ++ m :: l₂) (h₁ : ∀ y ∈ l₁, p y = false) (h₂ : p m = true) :
    List.find? p L = some m := by
  rw [hL]
  exact find?_first p m l₁ l₂ h₁ h₂

/-- quantize_to_scale returns the first minimal element of its table:
there is a decomposition of SCALE_FREQUENCIES with the result strictly
better than everything before it and at least as good as everything. -/
theorem quantize_spec (freq : ℚ) :
    ∃ l₁ l₂, SCALE_FREQUENCIES = l₁ ++ quantize_to_scale freq :: l₂ ∧
      (∀ y ∈ l₁, absQ (quantize_to_scale freq - freq) < absQ (y - freq)) ∧
      (∀ y ∈ SCALE_FREQUENCIES, absQ (quantize_to_scale freq - freq) ≤ absQ (y - freq)) :=
  minByKey_spec freq
    [246.94, 261.63, 293.66, 329.63, 392.0, 440.0, 493.88, 523.25, 587.33] 220.0

/-- Every quantized output is an element of the quantization table. -/
theorem quantize_mem (freq : ℚ) : quantize_to_scale freq ∈ SCALE_FREQUENCIES := by
  obtain ⟨l₁, l₂, hdec, _, _⟩ := quantize_spec freq
  rw [hdec]
  exact List.mem_append_right _ (List.mem_cons_self _ _)

/-- C2 counterexample: the claim identifies the quantization table with
the row table scale_frequencies; at input 246.94 the code returns 246.94,
which is not an element of scale_frequencies, so the claim as stated is
false. -/
theorem C2_quantize_table_cex :
    quantize_to_scale 246.94 = 246.94 ∧ (246.94 : ℚ) ∉ scale_frequencies := by
  constructor
  · norm_num [quantize_to_scale, SCALE_FREQUENCIES, minByKey, absQ]
  · norm_num [scale_frequencies]

/-- C2 (amended): quantize_to_scale returns the element of its own fixed
ascending 10-frequency table SCALE_FREQUENCIES minimizing the absolute
difference to the input, ties broken by the first minimal match in table
order (spec_quantize phrases exactly that and agrees), and every output is
a member of that same table; that table is distinct from the row table
scale_frequencies. -/
theorem C2_quantize_table_amended (freq : ℚ) :
    quantize_to_scale freq ∈ SCALE_FREQUENCIES ∧
    spec_quantize freq = some (quantize_to_scale freq) ∧
    SCALE_FREQUENCIES ≠ scale_frequencies := by
  obtain ⟨l₁, l₂, hdec, hstrict, hmin⟩ := quantize_spec freq
  refine ⟨quantize_mem freq, ?_, by norm_num [SCALE_FREQUENCIES, scale_frequencies]⟩
  apply find?_eq_of_decomp _ _ _ l₁ l₂ hdec
  · intro y hy
    apply Bool.eq_false_iff.mpr
    intro htrue
    rw [minimizes, List.all_eq_true] at htrue
    have hle := htrue (quantize_to_scale freq) (quantize_mem freq)
    rw [decide_eq_true_eq] at hle
    exact absurd hle (not_le.mpr (hstrict y hy))
  · rw [minimizes, List.all_eq_true]
    intro z hz
    exact decide_eq_true (hmin z hz)

/-- C9: quantize is idempotent: quantizing an already-quantized value
returns it unchanged, because every output lies in the table and every
table element is its own unique nearest neighbour. -/
theorem C9_quantize_idempotent (x : ℚ) :
    quantize_to_scale (quantize_to_scale x) = quantize_to_scale x := by
  have hmem : quantize_to_scale x ∈ SCALE_FREQUENCIES := quantize_mem x
  generalize hg : quantize_to_scale x = q at hmem ⊢
  fin_cases hmem <;> norm_num [quantize_to_scale, SCALE_FREQUENCIES, minByKey, absQ]

/-- SoundGrid.on_speed_change (src/app.py lines 461-464): the timer
interval in ms computed from the speed slider level. -/
def on_speed_change (level : ℕ) : ℕ := 50 + (10 - level) * 20

/-- C1 counterexample: at speed level 10 the formula in the code yields
50 ms, not the 70 ms the claim states (and at level 1 it yields 230 ms,
not 250 ms). -/
theorem C1_speed_interval_cex :
    on_speed_change 10 = 50 ∧ on_speed_change 10 ≠ 70 ∧
    on_speed_change 1 = 230 ∧ on_speed_change 1 ≠ 250 := by
  decide

/-- C1 (amended): the tick interval is computed from the speed level L in
[1,10] as intervalMs = 50 + (10 - L) * 20; this yields 50 ms at level 10,
230 ms at level 1 and 150 ms at level 5, the intervals ranging over
50-230 ms. -/
theorem C1_speed_interval_amended (L : ℕ) (h1 : 1 ≤ L) (h2 : L ≤ 10) :
    on_speed_change L = 50 + (10 - L) * 20 ∧
    50 ≤ on_speed_change L ∧ on_speed_change L ≤ 230 ∧
    on_speed_change 10 = 50 ∧ on_speed_change 1 = 230 ∧ on_speed_change 5 = 150 := by
  refine ⟨rfl, ?_, ?_, rfl, rfl, rfl⟩ <;> unfold on_speed_change <;> omega

/-- C1 witness: the amended interval theorem instantiated at level 5. -/
theorem C1_speed_interval_witness :
    on_speed_change 5 = 50 + (10 - 5) * 20 ∧
    50 ≤ on_speed_change 5 ∧ on_speed_change 5 ≤ 230 ∧
    on_speed_change 10 = 50 ∧ on_speed_change 1 = 230 ∧ on_speed_change 5 = 150 :=
  C1_speed_interval_amended 5 (by decide) (by decide)

/-- INSTRUMENT_NAMES (src/sound_synthesis.py line 4): the fixed list of
instrument types, in UI order. -/
def INSTRUMENT_NAMES : List String :=
  ["sine", "saw", "square", "samples", "mysynth", "fm", "drumkit"]

/-- The cell-cycling core of SoundGrid.on_toggle (src/app.py lines
344-390): from the current instrument index of a cell (-1 = off), compute
the next one; next = 0 from off, otherwise (current+1) mod (N+1), and
next = N turns the cell off (-1). -/
def on_toggle_cycle (current : ℤ) : ℤ :=
  let next : ℤ := if current = -1 then 0 else (current + 1) % ((INSTRUMENT_NAMES.length : ℤ) + 1)
  if next = (INSTRUMENT_NAMES.length : ℤ) then -1 else next

/-- Closed form for the cell value after m toggles within one period:
off at m = 0, instrument m - 1 otherwise. -/
def toggleOrbit (m : ℕ) : ℤ := if m = 0 then -1 else (m : ℤ) - 1

/-- One toggle advances the closed-form orbit by one step mod 8. -/
theorem toggleOrbit_step : ∀ m : ℕ, m < 8 →
    on_toggle_cycle (toggleOrbit m) = toggleOrbit ((m + 1) % 8) := by
  decide

/-- Closed form of iterated toggling from an off cell, with the period
written as the literal 8 = N + 1. -/
theorem toggle_iterate_closed (k : ℕ) :
    on_toggle_cycle^[k] (-1) = if k % 8 = 0 then -1 else ((k : ℤ) - 1) % 8 := by
  induction k with
  | zero => simp
  | succ k ih =>
    rw [Function.iterate_succ_apply', ih]
    have h1 : (if k % 8 = 0 then (-1 : ℤ) else ((k : ℤ) - 1) % 8) = toggleOrbit (k % 8) := by
      by_cases h : k % 8 = 0
      · simp only [toggleOrbit, if_pos h]
      · simp only [toggleOrbit, if_neg h]
        omega
    rw [h1, toggleOrbit_step (k % 8) (Nat.mod_lt _ (by norm_num))]
    rw [show (k % 8 + 1) % 8 = (k + 1) % 8 from by omega]
    by_cases h : (k + 1) % 8 = 0
    · simp only [toggleOrbit, if_pos h]
    · simp only [toggleOrbit, if_neg h]
      omega

/-- C6: toggling an off cell k times yields instrument (k-1) mod (N+1)
when k mod (N+1) is nonzero and off otherwise (N = 7 instrument types), so
one toggle yields instrument 0 and N+1 toggles return the cell to off. -/
theorem C6_toggle_cycle (k : ℕ) :
    on_toggle_cycle^[k] (-1) =
      if k % (INSTRUMENT_NAMES.length + 1) = 0 then -1
      else ((k : ℤ) - 1) % ((INSTRUMENT_NAMES.length : ℤ) + 1) := by
  have h1 : INSTRUMENT_NAMES.length + 1 = 8 := rfl
  have h2 : (INSTRUMENT_NAMES.length : ℤ) + 1 = 8 := rfl
  rw [h1, h2]
  exact toggle_iterate_closed k

/-- The three synthesis branches of the drumkit case of create_instrument. -/
inductive DrumBranch
  | kick
  | snare
  | hihat
deriving DecidableEq

/-- Frequency-range dispatch of the drumkit case of create_instrument
(src/sound_synthesis.py lines 52-65): freq below 100 builds the kick,
freq below 200 the snare, anything else the hi-hat. -/
def drumkit_branch (freq : ℚ) : DrumBranch :=
  if freq < 100 then DrumBranch.kick
  else if freq < 200 then DrumBranch.snare
  else DrumBranch.hihat

/-- Every frequency the program passes to create_instrument: the hold
buttons pass the fixed 220 (src/app.py line 272, on_instrument_button_down),
and both on_toggle (line 380) and on_timer (line 535) pass the cell row's
entry of scale_frequencies. -/
def create_instrument_call_freqs : List ℚ := 220 :: scale_frequencies

/-- C10: every frequency the program can pass to the drumkit instrument is
at least 220 Hz (the row-table minimum, also the fixed hold frequency), so
create_instrument with type drumkit always takes the hi-hat branch and the
kick and snare branches are unreachable. -/
theorem C10_drumkit_hihat (f : ℚ) (hf : f ∈ create_instrument_call_freqs) :
    220 ≤ f ∧ drumkit_branch f = DrumBranch.hihat := by
  fin_cases hf <;> constructor <;>
    norm_num [drumkit_branch, create_instrument_call_freqs, scale_frequencies]

/-- C10 witness: the hi-hat theorem instantiated at the hold frequency
220, which is an element of the call-frequency list. -/
theorem C10_drumkit_hihat_witness :
    220 ≤ (220 : ℚ) ∧ drumkit_branch 220 = DrumBranch.hihat :=
  C10_drumkit_hihat 220 (List.mem_cons_self _ _)

/-- The pyo Sine voice of the hue pipeline, as the parameters the code
sets on it: its frequency and its amplitude multiplier. -/
structure OscState where
  freq : ℚ
  mul : ℚ
deriving DecidableEq

/-- The effects chain built by create_hue_effects, as the parameters the
code sets: chorus depth/feedback/balance, compressor threshold and ratio
with rise and fall times, and the reverb size and stereo balance that
stop_hue_oscillator and update_hue_oscillator later touch. -/
structure HueEffects where
  chorus_depth : ℚ
  chorus_feedback : ℚ
  chorus_bal : ℚ
  comp_thresh : ℚ
  comp_ratio : ℚ
  comp_risetime : ℚ
  comp_falltime : ℚ
  size : ℚ
  bal : ℚ
deriving DecidableEq

/-- CameraManager's mutable fields relevant to the hue voice
(src/camera_utils.py lines 11-16): the optional oscillator, the optional
reverb chain, the smoothed current frequency and the frame counter. -/
structure CamState where
  hue_oscillator : Option OscState
  hue_reverb_effect : Option HueEffects
  current_freq : ℚ
  frame_counter : ℕ
deriving DecidableEq

/-- CameraManager.__init__ (src/camera_utils.py lines 11-16): no voice,
no reverb, current_freq 220, frame counter 0. -/
def camera_init : CamState :=
  { hue_oscillator := none, hue_reverb_effect := none, current_freq := 220, frame_counter := 0 }

/-- Stop calls the teardown issues on live pyo objects, in issue order. -/
inductive StopEvent
  | reverbStop
  | oscStop
deriving DecidableEq

/-- CameraManager.create_hue_effects (src/camera_utils.py lines 141-155):
chorus depth 0.5 feedback 0.25 bal 0.2, compressor thresh -10 ratio 4
risetime 0.01 falltime 0.1, Freeverb with size and bal both the reverb
argument. The volume argument is accepted but unused, as in the code. -/
def create_hue_effects (volume reverb : ℚ) : HueEffects :=
  { chorus_depth := 0.5, chorus_feedback := 0.25, chorus_bal := 0.2,
    comp_thresh := -10, comp_ratio := 4.0, comp_risetime := 0.01, comp_falltime := 0.1,
    size := reverb, bal := reverb }

/-- CameraManager.stop_hue_oscillator (src/camera_utils.py lines 114-121):
if the oscillator is live, stop the reverb stage (when present) then the
oscillator, and clear both references; otherwise do nothing. Returns the
new state and the list of stop calls issued, in order. -/
def stop_hue_oscillator (s : CamState) : CamState × List StopEvent :=
  match s.hue_oscillator with
  | none => (s, [])
  | some _ =>
    let revEvents : List StopEvent :=
      match s.hue_reverb_effect with
      | some _ => [StopEvent.reverbStop]
      | none => []
    ({ s with hue_oscillator := none, hue_reverb_effect := none },
     revEvents ++ [StopEvent.oscStop])

/-- CameraManager.update_hue_oscillator (src/camera_utils.py lines
123-139): first smooth current_freq toward target_freq with factor 0.1;
if no oscillator is live, start one at the smoothed frequency and build
the effects chain; otherwise re-apply frequency only when the frame
counter is divisible by 5, and volume and reverb size/balance always. -/
def update_hue_oscillator (s : CamState) (target_freq volume reverb : ℚ) : CamState :=
  let cf := s.current_freq + (target_freq - s.current_freq) * 0.1
  match s.hue_oscillator with
  | none =>
    { s with current_freq := cf,
             hue_oscillator := some { freq := cf, mul := volume },
             hue_reverb_effect := some (create_hue_effects volume reverb) }
  | some osc =>
    { s with current_freq := cf,
             hue_oscillator := some
               { freq := if s.frame_counter % 5 = 0 then cf else osc.freq, mul := volume },
             hue_reverb_effect :=
               s.hue_reverb_effect.map (fun e => { e with size := reverb, bal := reverb }) }

/-- The hue-voice control flow of CameraManager.process_frame
(src/camera_utils.py lines 22-80): when hue detection is disabled, tear
the voice down and return; when the camera read fails, skip the frame;
otherwise bump the frame counter mod 5 and either update the voice from
the quantized frequency 220 + (area mod 300) of the largest contour, or
tear the voice down when no contour is found. Bitmap rendering is
presentation output and is not modelled. -/
def process_frame (s : CamState) (hue_detection_enabled ret contours_found : Bool)
    (area : ℕ) (hue_volume hue_reverb : ℚ) : CamState × List StopEvent :=
  if !hue_detection_enabled then stop_hue_oscillator s
  else if !ret then (s, [])
  else
    let s1 := { s with frame_counter := (s.frame_counter + 1) % 5 }
    if contours_found then
      let raw_freq : ℚ := 220 + ((area % 300 : ℕ) : ℚ)
      let harmonic_freq := quantize_to_scale raw_freq
      (update_hue_oscillator s1 harmonic_freq hue_volume hue_reverb, [])
    else stop_hue_oscillator s1

/-- C3 counterexample: from the initial camera state (current_freq 220),
a first detection whose quantized target frequency is 440 (area 220 gives
raw 440, which quantizes to itself) starts the oscillator at the smoothed
value 242 = 220 + (440 - 220) * 0.1, not at the target 440 the claim
states. -/
theorem C3_tone_activation_cex :
    quantize_to_scale (220 + ((220 % 300 : ℕ) : ℚ)) = 440 ∧
    (process_frame camera_init true true true 220 0.5 0.5).1.current_freq = 242 ∧
    (process_frame camera_init true true true 220 0.5 0.5).1.hue_oscillator =
      some { freq := 242, mul := 0.5 } ∧
    (242 : ℚ) ≠ 440 := by
  refine ⟨?_, ?_, ?_, by norm_num⟩ <;>
    norm_num [process_frame, camera_init, update_hue_oscillator, quantize_to_scale,
      SCALE_FREQUENCIES, minByKey, absQ]

/-- C3 (amended): when a detection arrives while no hue oscillator is
live, the controller transitions to Active with currentFrequency set to
one smoothing step from its previous value toward targetFreq, namely
current + (target - current) * 0.1, the oscillator it builds starts at
that smoothed frequency (equal to targetFreq only when targetFreq already
equals the previous currentFrequency), and the effects chain is built with
reverb size and balance set to the reverb amount. -/
theorem C3_tone_activation_amended (s : CamState) (t v r : ℚ)
    (h : s.hue_oscillator = none) :
    (update_hue_oscillator s t v r).current_freq
        = s.current_freq + (t - s.current_freq) * 0.1 ∧
    (update_hue_oscillator s t v r).hue_oscillator
        = some { freq := s.current_freq + (t - s.current_freq) * 0.1, mul := v } ∧
    (update_hue_oscillator s t v r).hue_reverb_effect = some (create_hue_effects v r) := by
  refine ⟨?_, ?_, ?_⟩ <;> simp [update_hue_oscillator, h]

/-- C3 witness: the amended activation theorem instantiated at the
initial camera state with target 440. -/
theorem C3_tone_activation_witness :
    (update_hue_oscillator camera_init 440 0.5 0.5).current_freq
        = camera_init.current_freq + (440 - camera_init.current_freq) * 0.1 ∧
    (update_hue_oscillator camera_init 440 0.5 0.5).hue_oscillator
        = some { freq := camera_init.current_freq + (440 - camera_init.current_freq) * 0.1,
                 mul := 0.5 } ∧
    (update_hue_oscillator camera_init 440 0.5 0.5).hue_reverb_effect
        = some (create_hue_effects 0.5 0.5) :=
  C3_tone_activation_amended camera_init 440 0.5 0.5 rfl

/-- C8: whenever the hue voice is Active (oscillator and reverb both
live), tearing down stops the reverb then the oscillator, exactly in that
order and exactly once, leaving the Inactive state within the same frame;
both the disabled path and the detection-lost path of process_frame issue
exactly that single teardown; and tearing down when already Inactive is a
no-op. -/
theorem C8_teardown_once (s : CamState) (o : OscState) (e : HueEffects)
    (ret cf : Bool) (area : ℕ) (v r : ℚ)
    (ho : s.hue_oscillator = some o) (he : s.hue_reverb_effect = some e) :
    stop_hue_oscillator s =
      ({ s with hue_oscillator := none, hue_reverb_effect := none },
       [StopEvent.reverbStop, StopEvent.oscStop]) ∧
    process_frame s false ret cf area v r = stop_hue_oscillator s ∧
    process_frame s true true false area v r =
      stop_hue_oscillator { s with frame_counter := (s.frame_counter + 1) % 5 } ∧
    (∀ t : CamState, t.hue_oscillator = none → stop_hue_oscillator t = (t, [])) := by
  refine ⟨?_, ?_, ?_, ?_⟩
  · simp [stop_hue_oscillator, ho, he]
  · simp [process_frame]
  · simp [process_frame]
  · intro t ht
    simp [stop_hue_oscillator, ht]

/-- A concrete Active camera state used to witness the teardown theorem. -/
def c8_state : CamState :=
  { hue_oscillator := some { freq := 242, mul := 0.5 },
    hue_reverb_effect := some (create_hue_effects 0.5 0.5),
    current_freq := 242, frame_counter := 1 }

/-- C8 witness: the teardown theorem instantiated at a concrete Active
state. -/
theorem C8_teardown_once_witness :
    stop_hue_oscillator c8_state =
      ({ c8_state with hue_oscillator := none, hue_reverb_effect := none },
       [StopEvent.reverbStop, StopEvent.oscStop]) ∧
    process_frame c8_state false true true 0 0.5 0.5 = stop_hue_oscillator c8_state ∧
    process_frame c8_state true true false 0 0.5 0.5 =
      stop_hue_oscillator { c8_state with frame_counter := (c8_state.frame_counter + 1) % 5 } ∧
    (∀ t : CamState, t.hue_oscillator = none → stop_hue_oscillator t = (t, [])) :=
  C8_teardown_once c8_state { freq := 242, mul := 0.5 } (create_hue_effects 0.5 0.5)
    true true 0 0.5 0.5 rfl rfl

/-- The signal graph a column voice routes to output, as built in
on_timer (src/app.py lines 550-567): the Mix of the column's per-cell
instruments with its gain multiplier, wrapped in Compress with the given
threshold, ratio, rise and fall times, multiplied by a Fader with the
given fade-in, fade-out and multiplier. -/
inductive Sig
  | mix (gain : ℚ)
  | compress (input : Sig) (thresh ratio risetime falltime : ℚ)
  | mulFader (input : Sig) (fadein fadeout mul : ℚ)
deriving DecidableEq

/-- The [final_out, final_fader] pair stored per column in
self.column_mixers: the routed signal graph and whether its fader is
still playing (final_fader.stop() flips it to false). -/
structure ColumnVoiceState where
  final_out : Sig
  faderPlaying : Bool
deriving DecidableEq

/-- The SoundGrid frame state the claims touch (src/app.py __init__):
grid matrices and per-cell graphs are modelled as functions on integer
indices (the Python lists are 10 by 10, so only indices in [0,10) are
meaningful), the hold-loop dictionary as a function from instrument name
to optional live graph, and the column mixers as a function from column
index to optional ColumnVoiceState. -/
structure AppState where
  playing : Bool
  volume : ℚ
  hue_volume : ℚ
  hue_reverb : ℚ
  hue_detection_enabled : Bool
  current_instruments : ℤ → ℤ → ℤ
  oscillators : ℤ → ℤ → Option Unit
  instrument_loops : String → Option Unit
  column_mixers : ℤ → Option ColumnVoiceState
  v_line_pos : ℤ
  prev_line_pos : ℤ
  cam : CamState

/-- The number of active (non-off) cells in the given column: the length
of the active_sources list on_timer collects over rows 0..9 (src/app.py
lines 531-544). -/
def columnActiveCount (grid : ℤ → ℤ → ℤ) (col : ℤ) : ℕ :=
  ((List.range 10).filter fun y => decide (grid (y : ℤ) col ≠ -1)).length

/-- The column voice on_timer builds for a column with n active cells
(src/app.py lines 550-570): the Mix with gain 0.5 / n, compressed at
threshold -6 dB ratio 20 rise 0.01 fall 0.1, multiplied by a playing
Fader with fade-in 0.05, fade-out 0.2 and multiplier 1.0. -/
def column_voice_built (n : ℕ) : ColumnVoiceState :=
  { final_out := Sig.mulFader
      (Sig.compress (Sig.mix (0.5 / (n : ℚ))) (-6) 20 0.01 0.1) 0.05 0.2 1.0,
    faderPlaying := true }

/-- SoundGrid.on_timer (src/app.py lines 491-574), sequencer and hue
pipeline effects: do nothing unless playing; otherwise remember the
previous step, advance the step mod 10, process the camera frame, stop
the previous column's fader in place (the stored pair is not released),
and rebuild the current column: when at least one cell is active, store a
fresh graph mixing the cells with gain 0.5 / count into the compressor
and fader chain; when none is, store None. Button colour updates are
presentation output and are not modelled. -/
def on_timer (s : AppState) (frame_ret contours_found : Bool) (area : ℕ) : AppState :=
  if !s.playing then s
  else
    let prev := s.v_line_pos
    let cur := (s.v_line_pos + 1) % 10
    let cam1 := (process_frame s.cam s.hue_detection_enabled frame_ret contours_found area
      s.hue_volume s.hue_reverb).1
    let cm1 : ℤ → Option ColumnVoiceState :=
      if prev ≥ 0 then
        match s.column_mixers prev with
        | some st => Function.update s.column_mixers prev (some { st with faderPlaying := false })
        | none => s.column_mixers
      else s.column_mixers
    let n := columnActiveCount s.current_instruments cur
    let cm2 : ℤ → Option ColumnVoiceState :=
      if n ≠ 0 then Function.update cm1 cur (some (column_voice_built n))
      else Function.update cm1 cur none
    { s with prev_line_pos := prev, v_line_pos := cur, cam := cam1, column_mixers := cm2 }

/-- SoundGrid.on_clear_all (src/app.py lines 417-448): when playing,
stop playback, tear down the hue voice, reset the step marker and stop
and release every column mixer; then in all cases reset every cell to -1
and stop and release every per-cell graph. The hold-loop dictionary
self.instrument_loops is not touched anywhere in this handler. -/
def on_clear_all (s : AppState) : AppState :=
  let s1 :=
    if s.playing then
      { s with playing := false,
               cam := (stop_hue_oscillator s.cam).1,
               prev_line_pos := -1,
               v_line_pos := 0,
               column_mixers := fun _ => none }
    else s
  { s1 with current_instruments := fun _ _ => -1,
            oscillators := fun _ _ => none }

/-- A quiescent app state holding one live hold-loop voice for the sine
instrument, as after pressing and holding the Sine button. -/
def c4_state : AppState :=
  { playing := false, volume := 0.5, hue_volume := 0.5, hue_reverb := 0.5,
    hue_detection_enabled := true,
    current_instruments := fun _ _ => 3,
    oscillators := fun _ _ => none,
    instrument_loops := fun nm => if nm = "sine" then some () else none,
    column_mixers := fun _ => none,
    v_line_pos := 0, prev_line_pos := -1, cam := camera_init }

/-- C4 counterexample: clear-all does reset the grid, but the live
hold-loop voice for the sine instrument is still stored (and was never
stopped) afterwards, so a voice keeps producing output. -/
theorem C4_clear_all_cex :
    (on_clear_all c4_state).instrument_loops "sine" = some () ∧
    (on_clear_all c4_state).instrument_loops "sine" ≠ none ∧
    (on_clear_all c4_state).current_instruments 0 0 = -1 := by
  refine ⟨?_, ?_, ?_⟩ <;> simp [on_clear_all, c4_state]

/-- C4 (amended): the clear-all operation sets every grid cell to -1 and
releases every per-cell graph, but it leaves the hold-loop dictionary
untouched, so live hold-loop voices are not stopped by it. -/
theorem C4_clear_all_amended (s : AppState) :
    (∀ y x : ℤ, (on_clear_all s).current_instruments y x = -1) ∧
    (∀ y x : ℤ, (on_clear_all s).oscillators y x = none) ∧
    (on_clear_all s).instrument_loops = s.instrument_loops := by
  refine ⟨fun y x => ?_, fun y x => ?_, ?_⟩ <;>
    by_cases h : s.playing <;> simp [on_clear_all, h]

/-- The column voice stored in the counterexample state for step 1, as a
previous tick would have built it for a single active cell. -/
def c5_voice : ColumnVoiceState :=
  { final_out := Sig.mulFader (Sig.compress (Sig.mix 0.5) (-6) 20 0.01 0.1) 0.05 0.2 1.0,
    faderPlaying := true }

/-- A playing app state at step 1 whose column 1 holds a live voice and
whose grid is entirely off. -/
def c5_state : AppState :=
  { playing := true, volume := 0.5, hue_volume := 0.5, hue_reverb := 0.5,
    hue_detection_enabled := false,
    current_instruments := fun _ _ => -1,
    oscillators := fun _ _ => none,
    instrument_loops := fun _ => none,
    column_mixers := fun j => if j = 1 then some c5_voice else none,
    v_line_pos := 1, prev_line_pos := 0, cam := camera_init }

/-- C5 counterexample: after the tick advancing away from step 1, column
1 still stores its ColumnVoiceState (with the fader stopped); the stored
reference is not released, contradicting the claim that the column holds
no state until it next becomes the active step. -/
theorem C5_advance_step_cex :
    (on_timer c5_state false false 0).column_mixers 1 =
      some { c5_voice with faderPlaying := false } ∧
    (on_timer c5_state false false 0).column_mixers 1 ≠ none := by
  refine ⟨?_, ?_⟩ <;>
    simp [on_timer, c5_state, c5_voice, columnActiveCount, process_frame,
      stop_hue_oscillator, camera_init, Function.update_apply]

/-- C5 (amended): on each tick with a ColumnVoiceState present for the
previous step, that state's fader is stopped in place during that step,
but the stored reference is retained (not released) until the column is
next overwritten as the active step; columns other than prev and cur are
unchanged. -/
theorem C5_advance_step_amended (s : AppState) (fr cf : Bool) (area : ℕ)
    (st : ColumnVoiceState)
    (hp : s.playing = true) (h0 : 0 ≤ s.v_line_pos) (h9 : s.v_line_pos < 10)
    (hm : s.column_mixers s.v_line_pos = some st) :
    (on_timer s fr cf area).column_mixers s.v_line_pos
        = some { st with faderPlaying := false } ∧
    (on_timer s fr cf area).column_mixers s.v_line_pos ≠ none ∧
    (∀ j : ℤ, j ≠ s.v_line_pos → j ≠ (s.v_line_pos + 1) % 10 →
      (on_timer s fr cf area).column_mixers j = s.column_mixers j) := by
  have hne : s.v_line_pos ≠ (s.v_line_pos + 1) % 10 := by omega
  have hcm : (on_timer s fr cf area).column_mixers =
      (if columnActiveCount s.current_instruments ((s.v_line_pos + 1) % 10) ≠ 0 then
        Function.update
          (Function.update s.column_mixers s.v_line_pos (some { st with faderPlaying := false }))
          ((s.v_line_pos + 1) % 10)
          (some (column_voice_built
            (columnActiveCount s.current_instruments ((s.v_line_pos + 1) % 10))))
      else
        Function.update
          (Function.update s.column_mixers s.v_line_pos (some { st with faderPlaying := false }))
          ((s.v_line_pos + 1) % 10) none) := by
    simp [on_timer, hp, h0, hm]
  refine ⟨?_, ?_, ?_⟩
  · rw [hcm]
    by_cases hn : columnActiveCount s.current_instruments ((s.v_line_pos + 1) % 10) ≠ 0 <;>
      simp [hn, Function.update_noteq hne, Function.update_same]
  · rw [hcm]
    by_cases hn : columnActiveCount s.current_instruments ((s.v_line_pos + 1) % 10) ≠ 0 <;>
      simp [hn, Function.update_noteq hne, Function.update_same]
  · intro j hj1 hj2
    rw [hcm]
    by_cases hn : columnActiveCount s.current_instruments ((s.v_line_pos + 1) % 10) ≠ 0 <;>
      simp [hn, Function.update_noteq hj1, Function.update_noteq hj2]

/-- C5 witness: the amended tick theorem instantiated at the concrete
playing state c5_state, discharging its hypotheses there. -/
theorem C5_advance_step_witness :
    (on_timer c5_state false false 0).column_mixers c5_state.v_line_pos
        = some { c5_voice with faderPlaying := false } ∧
    (on_timer c5_state false false 0).column_mixers c5_state.v_line_pos ≠ none ∧
    (∀ j : ℤ, j ≠ c5_state.v_line_pos → j ≠ (c5_state.v_line_pos + 1) % 10 →
      (on_timer c5_state false false 0).column_mixers j = c5_state.column_mixers j) :=
  C5_advance_step_amended c5_state false false 0 c5_voice rfl (by norm_num [c5_state])
    (by norm_num [c5_state]) (by simp [c5_state])

/-- C7: on each tick, when the current column has at least one active
cell the stored column voice mixes the cells with gain 0.5 / count, the
mix sitting inside the compressor and fader stages; when no cell is
active, no mixer object is built and the column's entry is cleared to
None, so the 0.5 / count gain is only ever formed with a nonzero count. -/
theorem C7_column_gain (s : AppState) (fr cf : Bool) (area : ℕ)
    (hp : s.playing = true) :
    (columnActiveCount s.current_instruments ((s.v_line_pos + 1) % 10) ≠ 0 →
      (on_timer s fr cf area).column_mixers ((s.v_line_pos + 1) % 10) =
        some (column_voice_built
          (columnActiveCount s.current_instruments ((s.v_line_pos + 1) % 10)))) ∧
    (columnActiveCount s.current_instruments ((s.v_line_pos + 1) % 10) = 0 →
      (on_timer s fr cf area).column_mixers ((s.v_line_pos + 1) % 10) = none) := by
  constructor <;> intro hn <;>
    simp [on_timer, hp, hn, Function.update_same]

/-- A playing app state at step 0 with exactly one active cell (row 0,
column 1, instrument 0) in the upcoming column 1. -/
def c7_state : AppState :=
  { playing := true, volume := 0.5, hue_volume := 0.5, hue_reverb := 0.5,
    hue_detection_enabled := false,
    current_instruments := fun y x => if y = 0 ∧ x = 1 then 0 else -1,
    oscillators := fun _ _ => none,
    instrument_loops := fun _ => none,
    column_mixers := fun _ => none,
    v_line_pos := 0, prev_line_pos := -1, cam := camera_init }

/-- C7 witness: the column-gain theorem instantiated at the concrete
playing state c7_state, whose upcoming column has one active cell. -/
theorem C7_column_gain_witness :
    (columnActiveCount c7_state.current_instruments ((c7_state.v_line_pos + 1) % 10) ≠ 0 →
      (on_timer c7_state false false 0).column_mixers ((c7_state.v_line_pos + 1) % 10) =
        some (column_voice_built
          (columnActiveCount c7_state.current_instruments ((c7_state.v_line_pos + 1) % 10)))) ∧
    (columnActiveCount c7_state.current_instruments ((c7_state.v_line_pos + 1) % 10) = 0 →
      (on_timer c7_state false false 0).column_mixers ((c7_state.v_line_pos + 1) % 10) = none) :=
  C7_column_gain c7_state false false 0 rfl
